/- Verification of the Vibeloop Ops Copilot analytics engine
   (backend/main.py): the data model, the normalizer, the five metric
   windows, the synthesis layer and the rule-based answer engine are
   shallowly embedded over lists.  Pandas exceptions (KeyError on a
   missing column selection, ValueError on an empty groupby key list)
   are made explicit in an Except monad.  Timestamps are integers
   (nanoseconds since the epoch, as in pandas), numeric cells are
   exact rationals, and the date/number parsers of pandas are kept
   abstract as a parameter. -/
import Mathlib

set_option maxHeartbeats 1000000
set_option maxRecDepth 8000

unseal Rat.add Rat.inv Rat.mul Rat.sub

namespace SquareAI

/-- A cell of a dataframe: missing (NaN/NaT), numeric, datetime, or a
passthrough value such as a string. -/
inductive Cell where
  | na : Cell
  | num : ℚ → Cell
  | date : ℤ → Cell
  | str : String → Cell
deriving DecidableEq

/-- A dataframe: named columns and positional rows (row i, column j is
`rows[i][j]`, out-of-range positions read as missing). -/
structure Table where
  cols : List String
  rows : List (List Cell)
deriving DecidableEq

/-- Column-name vocabulary used by the analytics code. -/
def cDate : String := "date"

def cItem : String := "item"

def cSku : String := "sku"

def cCategory : String := "category"

def cUnits : String := "units_sold"

def cRevenue : String := "revenue"

def cInv : String := "inventory_on_hand"

def cExpenses : String := "expenses"

/-- The value of a row at a named column (missing column or short row
reads as `Cell.na`). -/
def getCell (cols : List String) (row : List Cell) (c : String) : Cell :=
  match cols.findIdx? (fun c' => c' == c) with
  | some i => row.getD i Cell.na
  | none => Cell.na

/-- Whether a dataframe has a column (`c in df.columns`). -/
def hasCol (t : Table) (c : String) : Bool := t.cols.contains c

/-- Numeric view of a cell, with missing/non-numeric read as 0: this is
exactly the skip-NaN semantics of the pandas sum on a numeric column. -/
def cellToQ : Cell → ℚ
  | Cell.num q => q
  | _ => 0

/-- Numeric view of a cell keeping missingness (pandas skip-NaN mean). -/
def cellQnum : Cell → Option ℚ
  | Cell.num q => some q
  | _ => none

/-- Timestamp view of a datetime cell (non-dates read as epoch 0; the
pipeline only applies this after `dropna` on a normalized date column). -/
def cellTs : Cell → ℤ
  | Cell.date d => d
  | _ => 0

/-- Is the cell the missing sentinel? -/
def isNa : Cell → Bool
  | Cell.na => true
  | _ => false

/- ---------------- Python string primitives ---------------- -/

/-- Python `str.strip()`: drop leading and trailing whitespace. -/
def pyStrip (l : List Char) : List Char :=
  ((l.dropWhile Char.isWhitespace).reverse.dropWhile Char.isWhitespace).reverse

/-- Python `str.lower()` (ASCII model, one character at a time). -/
def pyLower (l : List Char) : List Char := l.map Char.toLower

/-- Column-name cleaning from `normalize_dataframe`:
`col.strip().lower()`. -/
def cleanName (s : String) : String := (pyLower (pyStrip s.toList)).asString

/-- Python `str.lower()` on a whole string. -/
def pyLowerS (s : String) : String := (pyLower s.toList).asString

/-- Python `p in s` substring test. -/
def strContains (s p : String) : Bool :=
  s.toList.tails.any (fun l => p.toList.isPrefixOf l)

/- ---------------- The Normalizer ---------------- -/

/-- Abstract cell parsers: how `pd.to_datetime(..., errors="coerce")`
and `pd.to_numeric(..., errors="coerce")` read a string, and how a raw
number is reinterpreted as an epoch timestamp. -/
structure Parsers where
  strToDate : String → Option ℤ
  strToNum : String → Option ℚ
  numToDate : ℚ → ℤ

/-- `pd.to_datetime(column, errors="coerce")` on one cell: parse
failures become the NaT sentinel, never an error. -/
def toDatetime (P : Parsers) : Cell → Cell
  | Cell.na => Cell.na
  | Cell.date d => Cell.date d
  | Cell.num q => Cell.date (P.numToDate q)
  | Cell.str s =>
    match P.strToDate s with
    | some d => Cell.date d
    | none => Cell.na

/-- `pd.to_numeric(column, errors="coerce")` on one cell: parse
failures become the NaN sentinel, never an error. -/
def toNumeric (P : Parsers) : Cell → Cell
  | Cell.na => Cell.na
  | Cell.num q => Cell.num q
  | Cell.date d => Cell.num (d : ℚ)
  | Cell.str s =>
    match P.strToNum s with
    | some q => Cell.num q
    | none => Cell.na

/-- The columns that `normalize_dataframe` coerces to numeric. -/
def numColNames : List String := [cUnits, cRevenue, cInv, cExpenses]

/-- Per-cell coercion of `normalize_dataframe`, keyed by the cleaned
column name. -/
def coerceCell (P : Parsers) (c : String) (v : Cell) : Cell :=
  if c == cDate then toDatetime P v
  else if numColNames.contains c then toNumeric P v
  else v

/-- `normalize_dataframe`: clean the column names, coerce the `date`
column to datetimes and the four numeric columns to numbers. -/
def normalize_dataframe (P : Parsers) (t : Table) : Table :=
  let cols := t.cols.map cleanName
  { cols := cols
    rows := t.rows.map (fun row => List.zipWith (coerceCell P) cols row) }

/-- Well-typedness invariant of a normalized table: cells under the
`date` column are dates or missing, cells under the four numeric
columns are numbers or missing. -/
def cellTypeOK (c : String) (v : Cell) : Bool :=
  if c == cDate then
    match v with
    | Cell.date _ => true
    | Cell.na => true
    | _ => false
  else if numColNames.contains c then
    match v with
    | Cell.num _ => true
    | Cell.na => true
    | _ => false
  else true

/-- A table has normalized cell contents. -/
def isNormalized (t : Table) : Bool :=
  t.rows.all (fun row => (t.cols.zip row).all (fun p => cellTypeOK p.1 p.2))

/- ---------------- Generic pandas machinery ---------------- -/

variable {α β κ : Type*}

/-- `groupby(keys)[col].agg(f)`: one output entry per distinct key, the
aggregate of that key's values.  (Key order is first appearance; every
use below is followed by an explicit `sort_values`, so group order never
reaches an output.) -/
def groupAgg [DecidableEq κ] (f : List α → β) (l : List (κ × α)) : List (κ × β) :=
  (l.map Prod.fst).dedup.map
    (fun k => (k, f ((l.filter (fun p => p.1 == k)).map Prod.snd)))

/-- `sort_values(by=key)` ascending. -/
def sortByKey [LinearOrder β] (key : α → β) (l : List α) : List α :=
  List.insertionSort (fun a b => key a ≤ key b) l

/-- `sort_values(by=key, ascending=False)`. -/
def sortByKeyDesc [LinearOrder β] (key : α → β) (l : List α) : List α :=
  List.insertionSort (fun a b => key b ≤ key a) l

instance [LinearOrder β] (key : α → β) : DecidableRel (fun a b => key a ≤ key b) :=
  fun a b => inferInstanceAs (Decidable (key a ≤ key b))

instance [LinearOrder β] (key : α → β) : DecidableRel (fun a b => key b ≤ key a) :=
  fun a b => inferInstanceAs (Decidable (key b ≤ key a))

instance [LinearOrder β] (key : α → β) : IsTotal α (fun a b => key a ≤ key b) :=
  ⟨fun a b => le_total (key a) (key b)⟩

instance [LinearOrder β] (key : α → β) : IsTotal α (fun a b => key b ≤ key a) :=
  ⟨fun a b => le_total (key b) (key a)⟩

instance [LinearOrder β] (key : α → β) : IsTrans α (fun a b => key a ≤ key b) :=
  ⟨fun _ _ _ hab hbc => le_trans hab hbc⟩

instance [LinearOrder β] (key : α → β) : IsTrans α (fun a b => key b ≤ key a) :=
  ⟨fun _ _ _ hab hbc => le_trans hbc hab⟩

/-- `df.tail(n)`: the last `n` rows. -/
def pdTail (n : ℕ) (l : List α) : List α := l.drop (l.length - n)

/-- Mean of a group's cells skipping missing ones; `none` is the NaN
that a group with no numeric values yields (pandas skip-NaN `mean`). -/
def meanCells (cs : List Cell) : Option ℚ :=
  let vs := cs.filterMap cellQnum
  if vs.isEmpty then none else some (vs.sum / (vs.length : ℚ))

/-- The epsilon guard `1e-6` used by the source. -/
def epsQ : ℚ := 1 / 1000000

/-- One day, in pandas nanosecond timestamps (`timedelta(days=1)`). -/
def oneDay : ℤ := 86400000000000

/-- `ts.to_period("W").start_time`: the Monday-aligned start of the
calendar week containing the timestamp (epoch day 0 is a Thursday). -/
def weekStart (ts : ℤ) : ℤ :=
  let d := Int.fdiv ts oneDay
  (d - (d + 3) % 7) * oneDay

/-- `df.dropna(subset=["date"])`: rows whose date cell is not missing.
(The windows only reach this after checking that `date` exists, so the
KeyError path of `dropna` is unreachable for it.) -/
def dropnaDate (t : Table) : List (List Cell) :=
  t.rows.filter (fun row => !(isNa (getCell t.cols row cDate)))

/- ---------------- Metric Windows ---------------- -/

/-- A row of the Weekly Revenue derived table. -/
structure WRow where
  week : ℤ
  revenue : ℚ
deriving DecidableEq

/-- `compute_weekly_revenue`: requires `date` (returns the empty frame
otherwise), drops rows with missing date, buckets by calendar week,
sums `revenue` per week — the groupby column selection raises KeyError
when `revenue` is absent — sorts ascending by week and keeps the last
6 rows. -/
def compute_weekly_revenue (t : Table) : Except String (List WRow) :=
  if !(hasCol t cDate) then Except.ok []
  else if !(hasCol t cRevenue) then Except.error ("KeyError: " ++ cRevenue)
  else
    let pairs := (dropnaDate t).map
      (fun r => (weekStart (cellTs (getCell t.cols r cDate)),
                 cellToQ (getCell t.cols r cRevenue)))
    let weekly := (groupAgg (fun vs => vs.sum) pairs).map
      (fun p => WRow.mk p.1 p.2)
    Except.ok (pdTail 6 (sortByKey WRow.week weekly))

/-- A row of the Daily Financials derived table. -/
structure DRow where
  date : ℤ
  revenue : ℚ
  expenses : ℚ
  net_income : ℚ
deriving DecidableEq

/-- `compute_daily_financials`: requires `date` and `revenue`, sums
revenue per date (sorted ascending), left-joins the per-date expense
sums when `expenses` exists (the join never misses: both sides group
the same rows by the same key) or fills 0.0 otherwise, computes
`net_income = revenue - expenses` and keeps the last 14 rows. -/
def compute_daily_financials (t : Table) : Except String (List DRow) :=
  if !(hasCol t cDate) || !(hasCol t cRevenue) then Except.ok []
  else
    let rows := dropnaDate t
    let daily := sortByKey Prod.fst
      (groupAgg (fun vs => vs.sum)
        (rows.map (fun r => (cellTs (getCell t.cols r cDate),
                             cellToQ (getCell t.cols r cRevenue)))))
    let expOf : ℤ → ℚ :=
      if hasCol t cExpenses then
        fun d => ((groupAgg (fun vs => vs.sum)
          (rows.map (fun r => (cellTs (getCell t.cols r cDate),
                               cellToQ (getCell t.cols r cExpenses))))).lookup d).getD 0
      else fun _ => 0
    Except.ok (pdTail 14 (daily.map
      (fun p => DRow.mk p.1 p.2 (expOf p.1) (p.2 - expOf p.1))))

/-- A row of the Trending Items derived table. -/
structure TRow where
  item : Cell
  last_week : ℚ
  prior_week : ℚ
  change : ℚ
deriving DecidableEq

/-- `df["date"].max()` over the non-missing dates, `none` when there is
no row (pandas NaT). -/
def lastDateOf (t : Table) : Option ℤ :=
  match (dropnaDate t).map (fun r => cellTs (getCell t.cols r cDate)) with
  | [] => none
  | x :: xs => some (xs.foldl max x)

/-- (item, units_sold) pairs of the rows of `rs` whose timestamp
satisfies the window condition; rows with a missing item are dropped,
as the pandas groupby drops missing keys. -/
def windowPairs (t : Table) (rs : List (List Cell)) (cond : ℤ → Bool) : List (Cell × ℚ) :=
  ((rs.filter (fun r => cond (cellTs (getCell t.cols r cDate)))).filter
      (fun r => !(isNa (getCell t.cols r cItem)))).map
    (fun r => (getCell t.cols r cItem, cellToQ (getCell t.cols r cUnits)))

/-- `compute_trending_items`: requires `date` and `item` (empty frame
otherwise), drops rows with missing date, returns empty when no date
remains; otherwise the last-week window is
`[last_date - 6 days, last_date]` (inclusive) and the prior-week window
is `[last_date - 13 days, last_date - 6 days)` (half-open at the start
of last week).  Per-item units are summed in each window — the groupby
column selection raises KeyError when `units_sold` is absent — the two
series are outer-joined on item with missing sides filled with 0,
`change = last_week - prior_week`, sorted descending by change, top 8. -/
def compute_trending_items (t : Table) : Except String (List TRow) :=
  if !(hasCol t cDate) || !(hasCol t cItem) then Except.ok []
  else
    let rows := dropnaDate t
    match lastDateOf t with
    | none => Except.ok []
    | some lastDate =>
      let lastWeekStart := lastDate - 6 * oneDay
      let priorWeekStart := lastWeekStart - 7 * oneDay
      let lastPairs := windowPairs t rows
        (fun ts => decide (lastWeekStart ≤ ts) && decide (ts ≤ lastDate))
      let priorPairs := windowPairs t rows
        (fun ts => decide (priorWeekStart ≤ ts) && decide (ts < lastWeekStart))
      if !(hasCol t cUnits) then Except.error ("KeyError: " ++ cUnits)
      else
        let lastSales := groupAgg (fun vs => vs.sum) lastPairs
        let priorSales := groupAgg (fun vs => vs.sum) priorPairs
        let keys := (lastPairs.map Prod.fst ++ priorPairs.map Prod.fst).dedup
        let trend := keys.map (fun k =>
          let lw := ((lastSales.lookup k).getD 0)
          let pw := ((priorSales.lookup k).getD 0)
          TRow.mk k lw pw (lw - pw))
        Except.ok ((sortByKeyDesc TRow.change trend).take 8)

/-- The grouping key columns of the reorder list: whichever of `item`,
`sku`, `category` exist; the fallback branch of the source is dead code
(when none of the three exist, `item` does not exist either). -/
def reorderItemCols (t : Table) : List String :=
  let ics := [cItem, cSku, cCategory].filter (fun c => hasCol t c)
  if ics.isEmpty then (if hasCol t cItem then [cItem] else []) else ics

/-- The grouping key of a row: its cells under the key columns. -/
def keyOf (t : Table) (ics : List String) (r : List Cell) : List Cell :=
  ics.map (fun c => getCell t.cols r c)

/-- A row of the Reorder List derived table; `key` holds the group key
cells in `reorderItemCols` order. -/
structure RRow where
  key : List Cell
  avg_daily_units : ℚ
  inventory_on_hand : ℚ
  weeks_of_cover : ℚ
deriving DecidableEq

/-- The error pandas raises on `groupby([])`. -/
def valueErrNoKeys : String := "ValueError: No group keys passed!"

/-- `compute_reorder_list`: requires `inventory_on_hand` (empty frame
otherwise).  `df.dropna(subset=["units_sold"])` raises KeyError when
`units_sold` is absent; grouping with no key columns raises ValueError.
Otherwise: mean units per group over the non-missing-units rows, mean
inventory per group over all rows (groups whose keys contain a missing
cell are dropped by the pandas groupby), outer join filled with 0,
`weeks_of_cover = inventory / (avg * 7 + 1e-6)`, sorted ascending by
cover, top 10. -/
def compute_reorder_list (t : Table) : Except String (List RRow) :=
  if !(hasCol t cInv) then Except.ok []
  -- dropna(subset=["units_sold"]) raises when the column is absent
  else if !(hasCol t cUnits) then Except.error ("KeyError: " ++ cUnits)
  else
    let ics := reorderItemCols t
    let recent := t.rows.filter (fun row => !(isNa (getCell t.cols row cUnits)))
    if ics.isEmpty then Except.error valueErrNoKeys
    else
      let demandPairs := (recent.filter (fun r => !((keyOf t ics r).any isNa))).map
        (fun r => (keyOf t ics r, getCell t.cols r cUnits))
      let demand := groupAgg meanCells demandPairs
      let invPairs := (t.rows.filter (fun r => !((keyOf t ics r).any isNa))).map
        (fun r => (keyOf t ics r, getCell t.cols r cInv))
      let inventory := groupAgg meanCells invPairs
      let keys := (demandPairs.map Prod.fst ++ invPairs.map Prod.fst).dedup
      let merged := keys.map (fun k =>
        let avg := ((demand.lookup k).getD none).getD 0
        let inv := ((inventory.lookup k).getD none).getD 0
        RRow.mk k avg inv (inv / (avg * 7 + epsQ)))
      Except.ok ((sortByKey RRow.weeks_of_cover merged).take 10)

/-- A row of the Anomalies derived table (the z-score column is a real
number; the rows carry the date and revenue that determine it). -/
structure ARow where
  date : ℤ
  revenue : ℚ
deriving DecidableEq

/-- The per-date revenue series of the anomalies window: drop rows with
missing date, sum revenue per date, sort ascending by date. -/
def anomaliesDaily (t : Table) : List (ℤ × ℚ) :=
  sortByKey Prod.fst (groupAgg (fun vs => vs.sum)
    ((dropnaDate t).map (fun r => (cellTs (getCell t.cols r cDate),
                               cellToQ (getCell t.cols r cRevenue)))))

/-- Mean of the daily revenue series. -/
def aMean (t : Table) : ℚ :=
  let d := anomaliesDaily t
  (d.map Prod.snd).sum / (d.length : ℚ)

/-- Population variance (`std(ddof=0)` squared) of the daily series. -/
def aVar (t : Table) : ℚ :=
  let d := anomaliesDaily t
  (d.map (fun p => (p.2 - aMean t) ^ 2)).sum / (d.length : ℚ)

/-- Decidable rational form of the anomaly filter
`|x| / (sqrt V + 1e-6) >= 2` (see `zAbsGe2_iff` below: for `V >= 0`
this equals the real z-score test of the source). -/
def zAbsGe2 (V x : ℚ) : Bool :=
  decide (2 * epsQ ≤ |x|) && decide (4 * V ≤ (|x| - 2 * epsQ) ^ 2)

/-- The real z-score of the source: `(x - mean) / (std + 1e-6)` with
`std = sqrt variance`. -/
noncomputable def zscoreR (m V x : ℚ) : ℝ :=
  ((x : ℝ) - (m : ℝ)) / (Real.sqrt (V : ℝ) + ((epsQ : ℚ) : ℝ))

/-- `compute_anomalies`: requires `date` and `revenue` (empty frame
otherwise); empty when fewer than 7 distinct dates; otherwise keeps the
days with `|z-score| >= 2` and returns the last 5 in date order. -/
def compute_anomalies (t : Table) : Except String (List ARow) :=
  if !(hasCol t cDate) || !(hasCol t cRevenue) then Except.ok []
  else
    let daily := anomaliesDaily t
    if daily.length < 7 then Except.ok []
    else
      Except.ok (pdTail 5
        ((daily.filter (fun p => zAbsGe2 (aVar t) (p.2 - aMean t))).map
          (fun p => ARow.mk p.1 p.2)))

/- ---------------- Synthesis layer ---------------- -/

/-- A headline metric; the constructor records which metric it is and
the raw number behind the formatted display value. -/
inductive Metric where
  | totalRevenue : ℚ → Metric
  | totalExpenses : ℚ → Metric
  | netIncome : ℚ → Metric
  | unitsSold : ℚ → Metric
  | topItem : Cell → ℚ → Metric
deriving DecidableEq

/-- `df[c].sum()` with pandas skip-NaN semantics. -/
def sumCol (t : Table) (c : String) : ℚ :=
  (t.rows.map (fun r => cellToQ (getCell t.cols r c))).sum

/-- `build_metrics`: conditional metrics in a fixed order.  The
top-item block checks only `item`, then selects `revenue` in a groupby,
which raises KeyError when `revenue` is absent. -/
def build_metrics (t : Table) : Except String (List Metric) :=
  let ms := (if hasCol t cRevenue then [Metric.totalRevenue (sumCol t cRevenue)] else [])
  let totE := if hasCol t cExpenses then sumCol t cExpenses else 0
  let ms := ms ++ [Metric.totalExpenses totE]
  let ms := ms ++ (if hasCol t cRevenue then [Metric.netIncome (sumCol t cRevenue - totE)] else [])
  let ms := ms ++ (if hasCol t cUnits then [Metric.unitsSold (sumCol t cUnits)] else [])
  if hasCol t cItem then
    if !(hasCol t cRevenue) then Except.error ("KeyError: " ++ cRevenue)
    else
      let pairs := (t.rows.filter (fun r => !(isNa (getCell t.cols r cItem)))).map
        (fun r => (getCell t.cols r cItem, cellToQ (getCell t.cols r cRevenue)))
      match sortByKeyDesc Prod.snd (groupAgg (fun vs => vs.sum) pairs) with
      | [] => Except.ok ms
      | top :: _ => Except.ok (ms ++ [Metric.topItem top.1 top.2])
  else Except.ok ms

/-- Python truthiness of a cell value (NaN is truthy, 0 and the empty
string are falsy). -/
def pyTruthy : Cell → Bool
  | Cell.na => true
  | Cell.num q => !(q == 0)
  | Cell.str s => !(s == "")
  | Cell.date _ => true

/-- `row.get(c)` on a reorder row whose index was reset: the group key
columns are back as plain columns. -/
def rlGet (ics : List String) (key : List Cell) (c : String) : Option Cell :=
  (ics.findIdx? (fun c' => c' == c)).map (fun i => key.getD i Cell.na)

/-- Python `a or b` on an optional cell. -/
def pyOrCell (a : Option Cell) (b : Cell) : Cell :=
  match a with
  | some c => if pyTruthy c then c else b
  | none => b

/-- The literal fallback display name. -/
def strItem : String := "Item"

/-- `row.get("item") or row.get("sku") or "Item"`. -/
def displayName (ics : List String) (key : List Cell) : Cell :=
  pyOrCell (rlGet ics key cItem) (pyOrCell (rlGet ics key cSku) (Cell.str strItem))

/-- A recommended action; the constructor records which action and the
raw numbers behind the formatted string. -/
inductive Action where
  | reorder : Cell → ℚ → ℚ → Action
  | revenueDrop : ℚ → Action
  | fallback : Action
deriving DecidableEq

/-- `weekly.iloc[-1]`. -/
def ilocLast (l : List WRow) : WRow := l.getLastD (WRow.mk 0 0)

/-- `weekly.iloc[-2]`. -/
def ilocPrev (l : List WRow) : WRow := l.dropLast.getLastD (WRow.mk 0 0)

/-- `build_actions`: up to 3 reorder actions from the most urgent
reorder rows, then a revenue-drop action when the last week fell below
a positive prior week, then the generic fallback if nothing qualified. -/
def build_actions (t : Table) : Except String (List Action) :=
  match compute_reorder_list t with
  | Except.error e => Except.error e
  | Except.ok reorder =>
    let racts := (reorder.take 3).map (fun r =>
      Action.reorder (displayName (reorderItemCols t) r.key)
        r.inventory_on_hand r.avg_daily_units)
    let dres : Except String (List Action) :=
      if hasCol t cRevenue && hasCol t cDate then
        match compute_weekly_revenue t with
        | Except.error e => Except.error e
        | Except.ok weekly =>
          if 2 ≤ weekly.length then
            let last := (ilocLast weekly).revenue
            let prev := (ilocPrev weekly).revenue
            Except.ok (if 0 < prev ∧ last < prev then
              [Action.revenueDrop ((prev - last) / prev * 100)] else [])
          else Except.ok []
      else Except.ok []
    match dres with
    | Except.error e => Except.error e
    | Except.ok dacts =>
      let acts := racts ++ dacts
      Except.ok (if acts.isEmpty then [Action.fallback] else acts)

/- ---------------- Answer engine ---------------- -/

/-- A rule-based answer; each constructor is one templated message of
the source, carrying the raw numbers interpolated into it. -/
inductive Answer where
  | revdropMsg : ℚ → ℚ → ℚ → Answer
  | reorderStable : Answer
  | reorderMsg : Cell → ℚ → ℚ → Answer
  | noTrend : Answer
  | trendMsg : Cell → ℚ → Answer
  | noAnomaly : Answer
  | anomalyMsg : ℤ → ℚ → Answer
  | generic : Answer
deriving DecidableEq

/-- Question keywords of the answer engine. -/
def kwRevenue : String := "revenue"

def kwDrop : String := "drop"

def kwReorder : String := "reorder"

def kwStock : String := "stock"

def kwTrend : String := "trend"

def kwTrending : String := "trending"

def kwAnomal : String := "anomal"

/-- The branches of `rule_based_answer` below the revenue-drop one. -/
def rbaRest (q : String) (t : Table) : Except String Answer :=
  if strContains q kwReorder || strContains q kwStock then
    match compute_reorder_list t with
    | Except.error e => Except.error e
    | Except.ok [] => Except.ok Answer.reorderStable
    | Except.ok (top :: _) =>
      Except.ok (Answer.reorderMsg (displayName (reorderItemCols t) top.key)
        top.inventory_on_hand top.avg_daily_units)
  else if strContains q kwTrend || strContains q kwTrending then
    match compute_trending_items t with
    | Except.error e => Except.error e
    | Except.ok [] => Except.ok Answer.noTrend
    | Except.ok (top :: _) => Except.ok (Answer.trendMsg top.item top.change)
  else if strContains q kwAnomal then
    match compute_anomalies t with
    | Except.error e => Except.error e
    | Except.ok anomalies =>
      if anomalies.isEmpty then Except.ok Answer.noAnomaly
      else
        let last := anomalies.getLastD (ARow.mk 0 0)
        Except.ok (Answer.anomalyMsg last.date last.revenue)
  else Except.ok Answer.generic

/-- `rule_based_answer`: lower-case the question, compute the weekly
revenue unconditionally, and walk the keyword branches in priority
order; the first branch returns only when the prior week's revenue is
positive and otherwise falls through. -/
def rule_based_answer (question : String) (t : Table) : Except String Answer :=
  let q := pyLowerS question
  match compute_weekly_revenue t with
  | Except.error e => Except.error e
  | Except.ok weekly =>
    if strContains q kwRevenue && strContains q kwDrop && decide (2 ≤ weekly.length) then
      let last := (ilocLast weekly).revenue
      let prev := (ilocPrev weekly).revenue
      if 0 < prev then Except.ok (Answer.revdropMsg ((prev - last) / prev * 100) last prev)
      else rbaRest q t
    else rbaRest q t

/- ---------------- Spec-side reference formulas ---------------- -/

/-- Reference formula for a trending-items window: the `units_sold`
sum over the date-bearing rows whose item equals `i` and whose
timestamp satisfies the window condition. -/
def windowItemSum (t : Table) (cond : ℤ → Bool) (i : Cell) : ℚ :=
  (((dropnaDate t).filter (fun r => cond (cellTs (getCell t.cols r cDate)) &&
      (getCell t.cols r cItem == i))).map
    (fun r => cellToQ (getCell t.cols r cUnits))).sum

/-- The last-week window `[L - 6 days, L]`, both bounds inclusive. -/
def lastWeekSum (t : Table) (L : ℤ) (i : Cell) : ℚ :=
  windowItemSum t (fun ts => decide (L - 6 * oneDay ≤ ts) && decide (ts ≤ L)) i

/-- The prior-week window as the code computes it:
`[L - 13 days, L - 6 days)`, half-open at the start of last week. -/
def priorWeekSumCode (t : Table) (L : ℤ) (i : Cell) : ℚ :=
  windowItemSum t
    (fun ts => decide (L - 13 * oneDay ≤ ts) && decide (ts < L - 6 * oneDay)) i

/-- The prior-week window as the spec words it:
`[L - 13 days, L - 7 days)`. -/
def priorWeekSumClaim (t : Table) (L : ℤ) (i : Cell) : ℚ :=
  windowItemSum t
    (fun ts => decide (L - 13 * oneDay ≤ ts) && decide (ts < L - 7 * oneDay)) i

/-- All `units_sold` cells of a table are missing or nonnegative
numbers (in particular there are no negative demand values). -/
def unitsNonneg (t : Table) : Bool :=
  t.rows.all (fun r =>
    match getCell t.cols r cUnits with
    | Cell.na => true
    | Cell.num q => decide (0 ≤ q)
    | _ => false)

/- ---------------- Concrete tables ---------------- -/

/-- A normalized table with a `date` column but no `revenue`. -/
def tDateOnly : Table := ⟨[cDate], [[Cell.date 0]]⟩

/-- A normalized table with `date` and `item` but no `units_sold`. -/
def tDateItem : Table := ⟨[cDate, cItem], [[Cell.date 0, Cell.str ("a")]]⟩

/-- A normalized table with `inventory_on_hand` and `item` but no
`units_sold`. -/
def tInvItem : Table := ⟨[cInv, cItem], [[Cell.num 5, Cell.str ("a")]]⟩

/-- A normalized table with `inventory_on_hand` and `units_sold` but
none of the grouping columns `item`, `sku`, `category`. -/
def tInvUnits : Table := ⟨[cInv, cUnits], [[Cell.num 5, Cell.num 2]]⟩

/-- A normalized table with an `item` column but no `revenue`. -/
def tItemOnly : Table := ⟨[cItem], [[Cell.str ("a")]]⟩

/-- A normalized table with only `inventory_on_hand`. -/
def tInvOnly : Table := ⟨[cInv], [[Cell.num 5]]⟩

/-- Two rows of one item, dated `last_date` and exactly
`last_date - 7 days`. -/
def tTrend : Table :=
  ⟨[cDate, cItem, cUnits],
   [[Cell.date (13 * oneDay), Cell.str ("a"), Cell.num 5],
    [Cell.date (6 * oneDay), Cell.str ("a"), Cell.num 3]]⟩

/-- One item whose mean daily units is exactly `-1/7000000`, the value
at which the reorder divisor `avg * 7 + 1e-6` vanishes. -/
def tNegUnits : Table :=
  ⟨[cInv, cUnits, cItem],
   [[Cell.num 5, Cell.num (-1 / 7000000), Cell.str ("a")]]⟩

/-- A small healthy inventory table. -/
def tReorder : Table :=
  ⟨[cInv, cUnits, cItem], [[Cell.num 10, Cell.num 2, Cell.str ("a")]]⟩

/-- Two weeks of revenue, the later week higher. -/
def tWeekly : Table :=
  ⟨[cDate, cRevenue],
   [[Cell.date (4 * oneDay), Cell.num 100],
    [Cell.date (11 * oneDay), Cell.num 150]]⟩

/-- A two-row table carrying every expected column the windows use. -/
def tFull : Table :=
  ⟨[cDate, cItem, cUnits, cRevenue, cInv, cExpenses],
   [[Cell.date (4 * oneDay), Cell.str ("a"), Cell.num 2, Cell.num 100,
     Cell.num 10, Cell.num 5],
    [Cell.date (11 * oneDay), Cell.str ("b"), Cell.num 3, Cell.num 150,
     Cell.num 20, Cell.num 5]]⟩

/- ---------------- General lemmas ---------------- -/

instance {ε γ : Type*} [DecidableEq ε] [DecidableEq γ] : DecidableEq (Except ε γ) :=
  fun a b =>
    match a, b with
    | Except.error e, Except.error f => decidable_of_iff (e = f) (by simp)
    | Except.ok x, Except.ok y => decidable_of_iff (x = y) (by simp)
    | Except.error _, Except.ok _ => isFalse (fun h => Except.noConfusion h)
    | Except.ok _, Except.error _ => isFalse (fun h => Except.noConfusion h)

theorem char_eq_of_toNat_eq {a b : Char} (h : a.toNat = b.toNat) : a = b :=
  Char.ext (UInt32.ext h)

theorem char_toNat_ofNat (n : ℕ) (h : n.isValidChar) : (Char.ofNat n).toNat = n := by
  simp [Char.ofNat, h, Char.ofNatAux, Char.toNat, UInt32.toNat, BitVec.toNat_ofNatLt]

theorem toLower_toNat (c : Char) :
    c.toLower.toNat = if 65 ≤ c.toNat ∧ c.toNat ≤ 90 then c.toNat + 32 else c.toNat := by
  unfold Char.toLower
  by_cases h : c.toNat ≥ 65 ∧ c.toNat ≤ 90
  · have hv : (c.toNat + 32).isValidChar := Or.inl (by omega)
    simp only [ge_iff_le] at h
    rw [if_pos h, if_pos h, char_toNat_ofNat _ hv]
  · simp only [ge_iff_le] at h
    rw [if_neg h, if_neg h]

theorem toLower_toLower (c : Char) : c.toLower.toLower = c.toLower := by
  apply char_eq_of_toNat_eq
  rw [toLower_toNat c.toLower, toLower_toNat c]
  split_ifs <;> omega

theorem char_eq_iff_toNat {a b : Char} : a = b ↔ a.toNat = b.toNat :=
  ⟨fun h => congrArg Char.toNat h, char_eq_of_toNat_eq⟩

theorem isWhitespace_iff_toNat (c : Char) :
    c.isWhitespace = true ↔
      (c.toNat = 32 ∨ c.toNat = 9 ∨ c.toNat = 13 ∨ c.toNat = 10) := by
  unfold Char.isWhitespace
  rw [Bool.or_eq_true, Bool.or_eq_true, Bool.or_eq_true,
    decide_eq_true_eq, decide_eq_true_eq, decide_eq_true_eq, decide_eq_true_eq]
  rw [@char_eq_iff_toNat c ' ', @char_eq_iff_toNat c '\t',
    @char_eq_iff_toNat c '\x0d', @char_eq_iff_toNat c '\n']
  have e1 : (' ').toNat = 32 := rfl
  have e2 : ('\t').toNat = 9 := rfl
  have e3 : ('\x0d').toNat = 13 := rfl
  have e4 : ('\n').toNat = 10 := rfl
  rw [e1, e2, e3, e4]
  tauto

theorem isWhitespace_toLower (c : Char) :
    c.toLower.isWhitespace = c.isWhitespace := by
  by_cases h : 65 ≤ c.toNat ∧ c.toNat ≤ 90
  · have hl : c.toLower.toNat = c.toNat + 32 := by rw [toLower_toNat, if_pos h]
    have hA : c.toLower.isWhitespace = false := by
      by_contra hc
      rw [Bool.not_eq_false] at hc
      have := (isWhitespace_iff_toNat _).mp hc
      omega
    have hB : c.isWhitespace = false := by
      by_contra hc
      rw [Bool.not_eq_false] at hc
      have := (isWhitespace_iff_toNat _).mp hc
      omega
    rw [hA, hB]
  · have hl : c.toLower = c := char_eq_of_toNat_eq (by rw [toLower_toNat, if_neg h])
    rw [hl]

theorem dropWhile_dropWhile (p : α → Bool) (l : List α) :
    (l.dropWhile p).dropWhile p = l.dropWhile p := by
  induction l with
  | nil => rfl
  | cons a l ih =>
    by_cases h : p a
    · simp [List.dropWhile_cons, h, ih]
    · simp [List.dropWhile_cons, h]

theorem dropWhile_length_le (p : α → Bool) (l : List α) :
    (l.dropWhile p).length ≤ l.length := by
  conv_rhs => rw [← List.takeWhile_append_dropWhile p l]
  rw [List.length_append]
  omega

theorem dropWhile_suffix (p : α → Bool) (l : List α) : l.dropWhile p <:+ l :=
  ⟨l.takeWhile p, List.takeWhile_append_dropWhile p l⟩

theorem dropWhile_eq_self_of_prefix (p : α → Bool) {l m : List α}
    (hm : m <+: l) (hl : l.dropWhile p = l) : m.dropWhile p = m := by
  cases m with
  | nil => rfl
  | cons a m' =>
    obtain ⟨u, hu⟩ := hm
    rw [List.cons_append] at hu
    have hpa : p a = false := by
      by_contra hc
      rw [Bool.not_eq_false] at hc
      rw [← hu, List.dropWhile_cons, if_pos hc] at hl
      have h1 := dropWhile_length_le p (m' ++ u)
      have h2 := congrArg List.length hl
      simp only [List.length_cons] at h2
      omega
    rw [List.dropWhile_cons, if_neg (by rw [hpa]; exact fun hc => Bool.noConfusion hc)]

theorem pyStrip_dropWhile (l : List Char) :
    (pyStrip l).dropWhile Char.isWhitespace = pyStrip l := by
  have hb : (l.dropWhile Char.isWhitespace).dropWhile Char.isWhitespace =
      l.dropWhile Char.isWhitespace := dropWhile_dropWhile _ _
  apply dropWhile_eq_self_of_prefix (l := l.dropWhile Char.isWhitespace)
  · show pyStrip l <+: List.dropWhile Char.isWhitespace l
    unfold pyStrip
    conv_rhs => rw [← List.reverse_reverse (List.dropWhile Char.isWhitespace l)]
    exact List.reverse_prefix.mpr (dropWhile_suffix _ _)
  · exact hb

theorem pyStrip_idem (l : List Char) : pyStrip (pyStrip l) = pyStrip l := by
  conv_lhs => rw [pyStrip]
  rw [pyStrip_dropWhile]
  rw [show (pyStrip l).reverse =
    (l.dropWhile Char.isWhitespace).reverse.dropWhile Char.isWhitespace from by
      rw [pyStrip, List.reverse_reverse]]
  rw [dropWhile_dropWhile]
  rfl

theorem pyStrip_pyLower (l : List Char) :
    pyStrip (pyLower l) = pyLower (pyStrip l) := by
  unfold pyStrip pyLower
  rw [List.dropWhile_map]
  rw [show Char.isWhitespace ∘ Char.toLower = Char.isWhitespace from
    funext isWhitespace_toLower]
  rw [← List.map_reverse, List.dropWhile_map,
    show Char.isWhitespace ∘ Char.toLower = Char.isWhitespace from
      funext isWhitespace_toLower,
    ← List.map_reverse]

theorem pyLower_pyLower (l : List Char) : pyLower (pyLower l) = pyLower l := by
  unfold pyLower
  rw [List.map_map]
  exact List.map_congr_left (fun c _ => toLower_toLower c)

theorem cleanName_idem (s : String) : cleanName (cleanName s) = cleanName s := by
  unfold cleanName
  have ht : (List.asString (pyLower (pyStrip s.toList))).toList =
      pyLower (pyStrip s.toList) := rfl
  rw [ht, pyStrip_pyLower, pyLower_pyLower, pyStrip_idem]

theorem lookup_map_self [DecidableEq κ] [BEq κ] [LawfulBEq κ]
    (g : κ → β) (keys : List κ) (k : κ) :
    (keys.map (fun u => (u, g u))).lookup k =
      if k ∈ keys then some (g k) else none := by
  induction keys with
  | nil => simp
  | cons k0 ks ih =>
    by_cases h : k = k0
    · subst h
      simp [List.lookup_cons]
    · have hb : (k == k0) = false := by
        rw [Bool.eq_false_iff]
        intro hc
        exact h (eq_of_beq hc)
      simp [List.lookup_cons, hb, ih, h]

theorem lookup_groupAgg [DecidableEq κ] [BEq κ] [LawfulBEq κ]
    (f : List α → β) (l : List (κ × α)) (k : κ) :
    (groupAgg f l).lookup k =
      if k ∈ l.map Prod.fst then
        some (f ((l.filter (fun p => decide (p.1 = k))).map Prod.snd))
      else none := by
  unfold groupAgg
  rw [lookup_map_self]
  by_cases hk : k ∈ l.map Prod.fst
  · rw [if_pos (List.mem_dedup.mpr hk), if_pos hk]
    rfl
  · rw [if_neg (fun hc => hk (List.mem_dedup.mp hc)), if_neg hk]

theorem lookup_groupAgg_sum_getD [DecidableEq κ] [BEq κ] [LawfulBEq κ]
    (l : List (κ × ℚ)) (k : κ) :
    ((groupAgg (fun vs => vs.sum) l).lookup k).getD 0 =
      ((l.filter (fun p => decide (p.1 = k))).map Prod.snd).sum := by
  rw [lookup_groupAgg]
  split
  · rfl
  · have : l.filter (fun p => decide (p.1 = k)) = [] := by
      rw [List.filter_eq_nil_iff]
      intro p hp hpk
      exact ‹k ∉ l.map Prod.fst›
        (List.mem_map.mpr ⟨p, hp, of_decide_eq_true hpk⟩)
    simp [this]

theorem sortByKey_perm [LinearOrder β] (key : α → β) (l : List α) :
    (sortByKey key l).Perm l :=
  List.perm_insertionSort _ _

theorem sortByKeyDesc_perm [LinearOrder β] (key : α → β) (l : List α) :
    (sortByKeyDesc key l).Perm l :=
  List.perm_insertionSort _ _

theorem sortByKey_sorted [LinearOrder β] (key : α → β) (l : List α) :
    List.Sorted (· ≤ ·) ((sortByKey key l).map key) :=
  List.pairwise_map.mpr (List.sorted_insertionSort _ l)

theorem sortByKeyDesc_sorted [LinearOrder β] (key : α → β) (l : List α) :
    List.Sorted (fun a b => b ≤ a) ((sortByKeyDesc key l).map key) :=
  List.pairwise_map.mpr (List.sorted_insertionSort _ l)

theorem pdTail_length_le (n : ℕ) (l : List α) : (pdTail n l).length ≤ n := by
  simp only [pdTail, List.length_drop]
  omega

theorem sorted_map_pdTail [LinearOrder β] {R : β → β → Prop} (key : α → β)
    (l : List α) (n : ℕ) (h : List.Sorted R (l.map key)) :
    List.Sorted R ((pdTail n l).map key) := by
  rw [pdTail, List.map_drop]
  exact List.Pairwise.sublist (List.drop_sublist _ _) h

theorem sorted_map_take [LinearOrder β] {R : β → β → Prop} (key : α → β)
    (l : List α) (n : ℕ) (h : List.Sorted R (l.map key)) :
    List.Sorted R ((l.take n).map key) := by
  rw [List.map_take]
  exact List.Pairwise.sublist (List.take_sublist _ _) h

theorem mem_pdTail {l : List α} {a : α} (n : ℕ) (h : a ∈ pdTail n l) : a ∈ l :=
  List.mem_of_mem_drop h

theorem aVar_nonneg (t : Table) : 0 ≤ aVar t := by
  unfold aVar
  apply div_nonneg
  · apply List.sum_nonneg
    intro x hx
    obtain ⟨p, _, rfl⟩ := List.mem_map.mp hx
    positivity
  · exact Nat.cast_nonneg _

/-- The decidable rational test `zAbsGe2` is exactly the source's real
z-score test `|x - m| / (sqrt V + 1e-6) >= 2` whenever `V >= 0`. -/
theorem zAbsGe2_iff (m V x : ℚ) (hV : 0 ≤ V) :
    zAbsGe2 V (x - m) = true ↔ 2 ≤ |zscoreR m V x| := by
  have hVr : (0 : ℝ) ≤ (V : ℝ) := by exact_mod_cast hV
  have hs : (0 : ℝ) ≤ Real.sqrt (V : ℝ) := Real.sqrt_nonneg _
  have heps : (0 : ℝ) < ((epsQ : ℚ) : ℝ) := by norm_num [epsQ]
  have hden : (0 : ℝ) < Real.sqrt (V : ℝ) + ((epsQ : ℚ) : ℝ) := by linarith
  have habs : |zscoreR m V x| =
      |(x : ℝ) - (m : ℝ)| / (Real.sqrt (V : ℝ) + ((epsQ : ℚ) : ℝ)) := by
    unfold zscoreR
    rw [abs_div, abs_of_pos hden]
  rw [habs, le_div_iff₀ hden]
  unfold zAbsGe2
  rw [Bool.and_eq_true, decide_eq_true_eq, decide_eq_true_eq]
  constructor
  · rintro ⟨h1, h2⟩
    have h1r : 2 * ((epsQ : ℚ) : ℝ) ≤ |(x : ℝ) - (m : ℝ)| := by exact_mod_cast h1
    have h2r : 4 * (V : ℝ) ≤ (|(x : ℝ) - (m : ℝ)| - 2 * ((epsQ : ℚ) : ℝ)) ^ 2 := by
      exact_mod_cast h2
    have hc : (0 : ℝ) ≤ |(x : ℝ) - (m : ℝ)| - 2 * ((epsQ : ℚ) : ℝ) := by linarith
    have hsq : 2 * Real.sqrt (V : ℝ) ≤
        |(x : ℝ) - (m : ℝ)| - 2 * ((epsQ : ℚ) : ℝ) := by
      have h4 : (2 * Real.sqrt (V : ℝ)) ^ 2 = 4 * (V : ℝ) := by
        rw [mul_pow, Real.sq_sqrt hVr]
        ring
      calc 2 * Real.sqrt (V : ℝ)
          = Real.sqrt ((2 * Real.sqrt (V : ℝ)) ^ 2) := (Real.sqrt_sq (by linarith)).symm
        _ = Real.sqrt (4 * (V : ℝ)) := by rw [h4]
        _ ≤ Real.sqrt ((|(x : ℝ) - (m : ℝ)| - 2 * ((epsQ : ℚ) : ℝ)) ^ 2) :=
            Real.sqrt_le_sqrt h2r
        _ = |(x : ℝ) - (m : ℝ)| - 2 * ((epsQ : ℚ) : ℝ) := Real.sqrt_sq hc
    linarith
  · intro h
    have h1r : 2 * ((epsQ : ℚ) : ℝ) ≤ |(x : ℝ) - (m : ℝ)| := by linarith
    have h1 : 2 * epsQ ≤ |x - m| := by exact_mod_cast h1r
    refine ⟨h1, ?_⟩
    have hsq : 2 * Real.sqrt (V : ℝ) ≤
        |(x : ℝ) - (m : ℝ)| - 2 * ((epsQ : ℚ) : ℝ) := by linarith
    have hp := pow_le_pow_left₀ (by linarith : (0 : ℝ) ≤ 2 * Real.sqrt (V : ℝ)) hsq 2
    rw [mul_pow, Real.sq_sqrt hVr] at hp
    norm_num at hp
    exact_mod_cast hp

theorem windowPairs_fst_not_na {t : Table} {rs : List (List Cell)}
    {cond : ℤ → Bool} {p : Cell × ℚ} (hp : p ∈ windowPairs t rs cond) :
    isNa p.1 = false := by
  unfold windowPairs at hp
  obtain ⟨r, hr, rfl⟩ := List.mem_map.mp hp
  have h2 := (List.mem_filter.mp hr).2
  simpa using h2

theorem windowSum_aux (cols : List String) (cond : ℤ → Bool) (k : Cell)
    (hk : isNa k = false) (rs : List (List Cell)) :
    ((((rs.filter (fun a => !(isNa (getCell cols a cItem)) &&
          cond (cellTs (getCell cols a cDate)))).map
        (fun r => (getCell cols r cItem, cellToQ (getCell cols r cUnits)))).filter
        (fun p => p.1 == k)).map Prod.snd).sum =
      ((rs.filter (fun r => cond (cellTs (getCell cols r cDate)) &&
          (getCell cols r cItem == k))).map
        (fun r => cellToQ (getCell cols r cUnits))).sum := by
  induction rs with
  | nil => rfl
  | cons r rs ih =>
    by_cases h1 : cond (cellTs (getCell cols r cDate))
    · by_cases h2 : getCell cols r cItem = k
      · have hna : isNa (getCell cols r cItem) = false := by rw [h2]; exact hk
        simp [List.filter_cons, h1, h2, hna, hk, ih]
      · have hb : (getCell cols r cItem == k) = false := by
          simp [h2]
        by_cases h3 : isNa (getCell cols r cItem)
        · simp [List.filter_cons, h1, hb, h3, ih]
        · simp [List.filter_cons, h1, hb, h3, ih]
    · simp [List.filter_cons, h1, ih]

/-- Looking a non-missing key up in a window's per-item groupby (0 when
absent, as the outer join fills) is the reference window sum. -/
theorem windowPairs_key_sum (t : Table) (cond : ℤ → Bool) (k : Cell)
    (hk : isNa k = false) :
    (((groupAgg (fun vs => vs.sum)
        (windowPairs t (dropnaDate t) cond)).lookup k).getD 0) =
      windowItemSum t cond k := by
  rw [lookup_groupAgg_sum_getD]
  unfold windowPairs windowItemSum dropnaDate
  rw [List.filter_filter]
  exact windowSum_aux t.cols cond k hk _

theorem toDatetime_toDatetime (P : Parsers) (v : Cell) :
    toDatetime P (toDatetime P v) = toDatetime P v := by
  cases v with
  | na => rfl
  | num q => rfl
  | date d => rfl
  | str s =>
    cases h : P.strToDate s <;> simp [toDatetime, h]

theorem toNumeric_toNumeric (P : Parsers) (v : Cell) :
    toNumeric P (toNumeric P v) = toNumeric P v := by
  cases v with
  | na => rfl
  | num q => rfl
  | date d => rfl
  | str s =>
    cases h : P.strToNum s <;> simp [toNumeric, h]

theorem coerceCell_idem (P : Parsers) (c : String) (v : Cell) :
    coerceCell P c (coerceCell P c v) = coerceCell P c v := by
  unfold coerceCell
  split_ifs with h1 h2
  · exact toDatetime_toDatetime P v
  · exact toNumeric_toNumeric P v
  · rfl

theorem cellTypeOK_coerce (P : Parsers) (c : String) (v : Cell) :
    cellTypeOK c (coerceCell P c v) = true := by
  unfold coerceCell cellTypeOK
  split_ifs with h1 h2
  · cases v with
    | na => rfl
    | num q => rfl
    | date d => rfl
    | str s =>
      cases h : P.strToDate s <;> simp [toDatetime, h]
  · cases v with
    | na => rfl
    | num q => rfl
    | date d => rfl
    | str s =>
      cases h : P.strToNum s <;> simp [toNumeric, h]
  · rfl

theorem zip_zipWith_typeOK (P : Parsers) (cols : List String) (row : List Cell) :
    (cols.zip (List.zipWith (coerceCell P) cols row)).all
      (fun p => cellTypeOK p.1 p.2) = true := by
  induction cols generalizing row with
  | nil => rfl
  | cons c cs ih =>
    cases row with
    | nil => rfl
    | cons v vs =>
      simp only [List.zipWith_cons_cons, List.zip_cons_cons, List.all_cons,
        Bool.and_eq_true]
      exact ⟨cellTypeOK_coerce P c v, ih vs⟩

theorem zipWith_coerce_idem (P : Parsers) (cols : List String) (row : List Cell) :
    List.zipWith (coerceCell P) cols (List.zipWith (coerceCell P) cols row) =
      List.zipWith (coerceCell P) cols row := by
  induction cols generalizing row with
  | nil => rfl
  | cons c cs ih =>
    cases row with
    | nil => rfl
    | cons v vs =>
      simp only [List.zipWith_cons_cons]
      rw [coerceCell_idem, ih]

/-- C8: for every raw table (and any cell parsers), `normalize` returns
a table whose column names are the raw names stripped of surrounding
whitespace and lower-cased, whose row count equals the raw row count,
and — being a total function whose cell coercions send parse failures
to the missing sentinel — it never raises: every cell under the `date`
column comes out a date or missing and every cell under the four
numeric columns comes out a number or missing. -/
theorem C8_normalize_shape (P : Parsers) (t : Table) :
    (normalize_dataframe P t).cols = t.cols.map cleanName ∧
    (normalize_dataframe P t).rows.length = t.rows.length ∧
    isNormalized (normalize_dataframe P t) = true := by
  refine ⟨rfl, by simp [normalize_dataframe], ?_⟩
  unfold isNormalized normalize_dataframe
  rw [List.all_eq_true]
  intro row' hrow'
  obtain ⟨row, _, rfl⟩ := List.mem_map.mp hrow'
  exact zip_zipWith_typeOK P (t.cols.map cleanName) row

/-- C10: `normalize` is idempotent — re-normalizing an already
normalized table changes no column name (cleaning is idempotent) and no
cell value (both coercions fix their own outputs). -/
theorem C10_normalize_idem (P : Parsers) (t : Table) :
    normalize_dataframe P (normalize_dataframe P t) = normalize_dataframe P t := by
  unfold normalize_dataframe
  have hc : (t.cols.map cleanName).map cleanName = t.cols.map cleanName := by
    rw [List.map_map]
    exact List.map_congr_left (fun s _ => cleanName_idem s)
  simp only [hc, List.map_map]
  congr 1
  apply List.map_congr_left
  intro row _
  exact zipWith_coerce_idem P (t.cols.map cleanName) row

/-- C1: the failure policy says a window whose required column is
missing returns an empty Derived Table and never raises, but each
window checks only part of its required columns and the later pandas
groupby column selection (or `dropna(subset=...)`) raises KeyError on
normalized tables: Weekly Revenue raises when `revenue` is absent,
Trending Items and the Reorder List raise when `units_sold` is
absent. -/
theorem C1_missing_column_raises :
    (isNormalized tDateOnly = true ∧
      compute_weekly_revenue tDateOnly = Except.error ("KeyError: " ++ cRevenue)) ∧
    (isNormalized tDateItem = true ∧
      compute_trending_items tDateItem = Except.error ("KeyError: " ++ cUnits)) ∧
    (isNormalized tInvItem = true ∧
      compute_reorder_list tInvItem = Except.error ("KeyError: " ++ cUnits)) := by
  refine ⟨⟨by decide, by decide⟩, ⟨by decide, by decide⟩, by decide, by decide⟩

/-- C2: on a normalized table having `inventory_on_hand` (and
`units_sold`) but none of `item`, `sku`, `category`, the Reorder List
does not return an empty Derived Table as the spec says: the source's
`item` fallback is dead code, the key-column list stays empty, and the
pandas groupby raises ValueError. -/
theorem C2_reorder_no_group_key_raises :
    isNormalized tInvUnits = true ∧
    hasCol tInvUnits cInv = true ∧
    hasCol tInvUnits cItem = false ∧
    hasCol tInvUnits cSku = false ∧
    hasCol tInvUnits cCategory = false ∧
    compute_reorder_list tInvUnits = Except.error valueErrNoKeys := by
  refine ⟨by decide, by decide, by decide, by decide, by decide, by decide⟩

/-- C3: the spec ties the top-item metric to `item` and `revenue` both
being present, but `build_metrics` checks only `item` before selecting
`revenue` in a groupby, so on a normalized table with `item` and no
`revenue` it raises KeyError instead of returning a metrics list
without a top-item entry. -/
theorem C3_build_metrics_raises_without_revenue :
    isNormalized tItemOnly = true ∧
    hasCol tItemOnly cItem = true ∧
    hasCol tItemOnly cRevenue = false ∧
    build_metrics tItemOnly = Except.error ("KeyError: " ++ cRevenue) := by
  refine ⟨by decide, by decide, by decide, by decide⟩

/-- C5 counterexample: `build_actions` does not always return — on a
normalized table with only `inventory_on_hand` the reorder window it
calls raises KeyError, which propagates out of `build_actions`. -/
theorem C5_claim_false :
    isNormalized tInvOnly = true ∧
    build_actions tInvOnly = Except.error ("KeyError: " ++ cUnits) := by
  refine ⟨by decide, by decide⟩

/-- C5 amended: whenever `build_actions` returns (the reorder window
did not raise), its action list is non-empty — the generic fallback is
appended exactly when no reorder and no revenue-drop action
qualified. -/
theorem C5_actions_nonempty (t : Table) (acts : List Action)
    (h : build_actions t = Except.ok acts) : acts ≠ [] := by
  simp only [build_actions] at h
  split at h
  · exact absurd h (by simp)
  · split at h
    · exact absurd h (by simp)
    · injection h with h
      subst h
      split
      · simp
      · next he =>
        intro hc
        rw [hc] at he
        exact he rfl

/-- C5 witness: a healthy one-item inventory table yields one reorder
action and hence a non-empty list. -/
theorem C5_actions_nonempty_witness :
    ([Action.reorder (Cell.str ("a")) 10 2] : List Action) ≠ [] :=
  C5_actions_nonempty tReorder [Action.reorder (Cell.str ("a")) 10 2] (by decide)

/-- C9: whenever the lower-cased question contains both "revenue" and
"drop", the weekly series has at least two weeks and the prior week's
revenue is positive, `rule_based_answer` returns the first branch's
week-over-week message — it does not require the last week to actually
be lower, so the reported percentage may be negative, and it does not
fall through to the later branches. -/
theorem C9_revdrop_branch_no_drop_required (question : String) (t : Table)
    (ws : List WRow) (hw : compute_weekly_revenue t = Except.ok ws)
    (h1 : strContains (pyLowerS question) kwRevenue = true)
    (h2 : strContains (pyLowerS question) kwDrop = true)
    (hlen : 2 ≤ ws.length)
    (hprev : 0 < (ilocPrev ws).revenue) :
    rule_based_answer question t =
      Except.ok (Answer.revdropMsg
        (((ilocPrev ws).revenue - (ilocLast ws).revenue) / (ilocPrev ws).revenue * 100)
        (ilocLast ws).revenue (ilocPrev ws).revenue) := by
  simp only [rule_based_answer, hw]
  rw [h1, h2, decide_eq_true hlen]
  simp [hprev]

/-- C4: for every table on which the windows succeed, Weekly Revenue
has at most 6 rows sorted ascending by week start, Daily Financials at
most 14 rows sorted ascending by date, Trending Items at most 8 rows
sorted descending by change, the Reorder List at most 10 rows sorted
ascending by weeks of cover, and Anomalies at most 5 rows, each of
which passes the `|z-score| >= 2` test of the source. -/
theorem C4_window_shapes (t : Table) :
    (∀ ws, compute_weekly_revenue t = Except.ok ws →
      ws.length ≤ 6 ∧ List.Sorted (· ≤ ·) (ws.map WRow.week)) ∧
    (∀ ds, compute_daily_financials t = Except.ok ds →
      ds.length ≤ 14 ∧ List.Sorted (· ≤ ·) (ds.map DRow.date)) ∧
    (∀ tr, compute_trending_items t = Except.ok tr →
      tr.length ≤ 8 ∧ List.Sorted (fun a b => b ≤ a) (tr.map TRow.change)) ∧
    (∀ rl, compute_reorder_list t = Except.ok rl →
      rl.length ≤ 10 ∧ List.Sorted (· ≤ ·) (rl.map RRow.weeks_of_cover)) ∧
    (∀ ans, compute_anomalies t = Except.ok ans →
      ans.length ≤ 5 ∧ ∀ r ∈ ans, 2 ≤ |zscoreR (aMean t) (aVar t) r.revenue|) := by
  refine ⟨?_, ?_, ?_, ?_, ?_⟩
  · intro ws h
    unfold compute_weekly_revenue at h
    split at h
    · injection h with h
      subst h
      simp
    · split at h
      · exact absurd h (by simp)
      · injection h with h
        subst h
        exact ⟨pdTail_length_le _ _,
          sorted_map_pdTail WRow.week _ 6 (sortByKey_sorted WRow.week _)⟩
  · intro ds h
    unfold compute_daily_financials at h
    split at h
    · injection h with h
      subst h
      simp
    · injection h with h
      subst h
      refine ⟨pdTail_length_le _ _, ?_⟩
      apply sorted_map_pdTail
      rw [List.map_map]
      exact sortByKey_sorted Prod.fst _
  · intro tr h
    unfold compute_trending_items at h
    split at h
    · injection h with h
      subst h
      simp
    · split at h
      · injection h with h
        subst h
        simp
      · split at h
        · exact absurd h (by simp)
        · injection h with h
          subst h
          exact ⟨List.length_take_le _ _,
            sorted_map_take TRow.change _ 8 (sortByKeyDesc_sorted TRow.change _)⟩
  · intro rl h
    unfold compute_reorder_list at h
    dsimp only at h
    split at h
    · injection h with h
      subst h
      simp
    · split at h
      · exact absurd h (by simp)
      · split at h
        · exact absurd h (by simp)
        · injection h with h
          subst h
          exact ⟨List.length_take_le _ _,
            sorted_map_take RRow.weeks_of_cover _ 10
              (sortByKey_sorted RRow.weeks_of_cover _)⟩
  · intro ans h
    unfold compute_anomalies at h
    dsimp only at h
    split at h
    · injection h with h
      subst h
      simp
    · split at h
      · injection h with h
        subst h
        simp
      · injection h with h
        subst h
        refine ⟨pdTail_length_le _ _, ?_⟩
        intro r hr
        obtain ⟨p, hp, rfl⟩ := List.mem_map.mp (mem_pdTail _ hr)
        exact (zAbsGe2_iff (aMean t) (aVar t) p.2 (aVar_nonneg t)).mp
          (List.mem_filter.mp hp).2

/-- C4 witness: the five window shapes evaluated on a concrete two-row
table carrying every expected column (the anomalies window is empty
there, having fewer than 7 dates). -/
theorem C4_witness :
    (([WRow.mk (4 * oneDay) 100, WRow.mk (11 * oneDay) 150] : List WRow).length ≤ 6 ∧
      List.Sorted (· ≤ ·)
        ([WRow.mk (4 * oneDay) 100, WRow.mk (11 * oneDay) 150].map WRow.week)) ∧
    (([DRow.mk (4 * oneDay) 100 5 95,
       DRow.mk (11 * oneDay) 150 5 145] : List DRow).length ≤ 14 ∧
      List.Sorted (· ≤ ·)
        ([DRow.mk (4 * oneDay) 100 5 95,
          DRow.mk (11 * oneDay) 150 5 145].map DRow.date)) ∧
    (([TRow.mk (Cell.str ("b")) 3 0 3,
       TRow.mk (Cell.str ("a")) 0 2 (-2)] : List TRow).length ≤ 8 ∧
      List.Sorted (fun a b => b ≤ a)
        ([TRow.mk (Cell.str ("b")) 3 0 3,
          TRow.mk (Cell.str ("a")) 0 2 (-2)].map TRow.change)) ∧
    (([RRow.mk [Cell.str ("a")] 2 10 (10000000 / 14000001),
       RRow.mk [Cell.str ("b")] 3 20 (20000000 / 21000001)] : List RRow).length ≤ 10 ∧
      List.Sorted (· ≤ ·)
        ([RRow.mk [Cell.str ("a")] 2 10 (10000000 / 14000001),
          RRow.mk [Cell.str ("b")] 3 20 (20000000 / 21000001)].map RRow.weeks_of_cover)) ∧
    (([] : List ARow).length ≤ 5 ∧
      ∀ r ∈ ([] : List ARow), 2 ≤ |zscoreR (aMean tFull) (aVar tFull) r.revenue|) := by
  refine ⟨(C4_window_shapes tFull).1 _ (by decide),
    (C4_window_shapes tFull).2.1 _ (by decide),
    (C4_window_shapes tFull).2.2.1 _ (by decide),
    (C4_window_shapes tFull).2.2.2.1 _ (by decide),
    (C4_window_shapes tFull).2.2.2.2 _ (by decide)⟩

/-- C6 counterexample: on a normalized table with rows dated
`last_date` and exactly `last_date - 7 days`, the code counts the
`last_date - 7 days` row in the prior week (`prior_week = 3`), while
the claim's half-open interval `[L - 13 days, L - 7 days)` excludes it
(that sum is 0) — so the claim's prior-week formula is false at this
input. -/
theorem C6_claim_false :
    isNormalized tTrend = true ∧
    lastDateOf tTrend = some (13 * oneDay) ∧
    compute_trending_items tTrend =
      Except.ok [TRow.mk (Cell.str ("a")) 5 3 2] ∧
    priorWeekSumClaim tTrend (13 * oneDay) (Cell.str ("a")) = 0 ∧
    priorWeekSumCode tTrend (13 * oneDay) (Cell.str ("a")) = 3 ∧
    (3 : ℚ) ≠ 0 := by
  refine ⟨by decide, by decide, by decide, by decide, by decide, by decide⟩

/-- C6 amended: in Trending Items the last-week window is
`[last_date - 6 days, last_date]` inclusive and the prior-week window
is `[last_date - 13 days, last_date - 6 days)` — half-open at the
start of last week, so a row dated exactly `last_date - 7 days` does
fall in the prior week.  Per-item units are summed within each window,
an item with no rows in a window counts as 0 there, and
`change = last_week - prior_week`. -/
theorem C6_trending_window_semantics (t : Table) (L : ℤ)
    (hL : lastDateOf t = some L) (tr : List TRow)
    (h : compute_trending_items t = Except.ok tr) :
    ∀ r ∈ tr, isNa r.item = false ∧
      r.last_week = lastWeekSum t L r.item ∧
      r.prior_week = priorWeekSumCode t L r.item ∧
      r.change = r.last_week - r.prior_week := by
  intro r hr
  unfold compute_trending_items at h
  dsimp only at h
  split at h
  · injection h with h
    subst h
    cases hr
  · split at h
    · injection h with h
      subst h
      cases hr
    · next lastDate heq =>
      rw [hL] at heq
      injection heq with heq
      subst heq
      split at h
      · exact absurd h (by simp)
      · injection h with h
        subst h
        have hr2 : r ∈ sortByKeyDesc TRow.change _ := List.mem_of_mem_take hr
        have hr3 := (sortByKeyDesc_perm TRow.change _).mem_iff.mp hr2
        obtain ⟨k, hk, rfl⟩ := List.mem_map.mp hr3
        have hna : isNa k = false := by
          rcases List.mem_append.mp (List.mem_dedup.mp hk) with h1 | h1
          · obtain ⟨p, hp, rfl⟩ := List.mem_map.mp h1
            exact windowPairs_fst_not_na hp
          · obtain ⟨p, hp, rfl⟩ := List.mem_map.mp h1
            exact windowPairs_fst_not_na hp
        refine ⟨hna, ?_, ?_, rfl⟩
        · exact windowPairs_key_sum t _ k hna
        · show ((List.lookup k _).getD 0) = priorWeekSumCode t L k
          rw [windowPairs_key_sum t _ k hna]
          unfold priorWeekSumCode
          rw [show L - 6 * oneDay - 7 * oneDay = L - 13 * oneDay from by ring]

/-- C6 witness: the amended window semantics evaluated on the concrete
two-row table of the counterexample. -/
theorem C6_witness :
    isNa (Cell.str ("a")) = false ∧
    (5 : ℚ) = lastWeekSum tTrend (13 * oneDay) (Cell.str ("a")) ∧
    (3 : ℚ) = priorWeekSumCode tTrend (13 * oneDay) (Cell.str ("a")) ∧
    (2 : ℚ) = 5 - 3 :=
  C6_trending_window_semantics tTrend (13 * oneDay) (by decide)
    [TRow.mk (Cell.str ("a")) 5 3 2] (by decide)
    (TRow.mk (Cell.str ("a")) 5 3 2) (by decide)

/-- C7 counterexample: in exact arithmetic the reorder divisor
`avg_daily_units * 7 + 1e-6` is exactly zero when a group's mean daily
units is `-1/7000000`; the claim's "never exactly zero" is false for a
normalized table carrying that (negative) units value.  (The rational
model's division by the vanishing divisor returns 0 in the row's
`weeks_of_cover` field; the floating-point pipeline would produce an
infinity there — likewise not a finite cover.) -/
theorem C7_claim_false :
    isNormalized tNegUnits = true ∧
    compute_reorder_list tNegUnits =
      Except.ok [RRow.mk [Cell.str ("a")] (-1 / 7000000) 5 0] ∧
    (-1 / 7000000 : ℚ) * 7 + epsQ = 0 := by
  refine ⟨by decide, by decide, by decide⟩

theorem meanCells_getD_nonneg (cs : List Cell)
    (hcs : ∀ c ∈ cs, ∀ q, cellQnum c = some q → 0 ≤ q) :
    0 ≤ (meanCells cs).getD 0 := by
  unfold meanCells
  dsimp only
  by_cases he : (cs.filterMap cellQnum).isEmpty
  · rw [if_pos he]
    simp
  · rw [if_neg he]
    simp only [Option.getD_some]
    apply div_nonneg
    · apply List.sum_nonneg
      intro v hv
      obtain ⟨c, hc, hq⟩ := List.mem_filterMap.mp hv
      exact hcs c hc v hq
    · exact Nat.cast_nonneg _

/-- C7 amended: on a normalized table whose `units_sold` values are all
missing-or-nonnegative, every reorder row's mean daily units is
nonnegative, so the divisor `avg_daily_units * 7 + 1e-6` is strictly
positive — in particular nonzero even when the average is 0 — and
`weeks_of_cover` is the well-defined quotient by it. -/
theorem C7_reorder_divisor_positive (t : Table) (hu : unitsNonneg t = true)
    (rl : List RRow) (h : compute_reorder_list t = Except.ok rl) :
    ∀ r ∈ rl, 0 ≤ r.avg_daily_units ∧
      0 < r.avg_daily_units * 7 + epsQ ∧
      r.weeks_of_cover = r.inventory_on_hand / (r.avg_daily_units * 7 + epsQ) := by
  intro r hr
  unfold compute_reorder_list at h
  dsimp only at h
  split at h
  · injection h with h
    subst h
    cases hr
  · split at h
    · exact absurd h (by simp)
    · split at h
      · exact absurd h (by simp)
      · injection h with h
        subst h
        have hr2 : r ∈ sortByKey RRow.weeks_of_cover _ := List.mem_of_mem_take hr
        have hr3 := (sortByKey_perm RRow.weeks_of_cover _).mem_iff.mp hr2
        obtain ⟨k, hk, rfl⟩ := List.mem_map.mp hr3
        have havg : 0 ≤ (((List.lookup k (groupAgg meanCells
            ((List.filter (fun r => !(keyOf t (reorderItemCols t) r).any isNa)
              (List.filter (fun row => !(isNa (getCell t.cols row cUnits))) t.rows)).map
              (fun r => (keyOf t (reorderItemCols t) r, getCell t.cols r cUnits))))).getD
            none).getD 0) := by
          cases hlk : List.lookup k (groupAgg meanCells
              ((List.filter (fun r => !(keyOf t (reorderItemCols t) r).any isNa)
                (List.filter (fun row => !(isNa (getCell t.cols row cUnits))) t.rows)).map
                (fun r => (keyOf t (reorderItemCols t) r, getCell t.cols r cUnits)))) with
          | none => simp [hlk]
          | some o =>
            rw [lookup_groupAgg] at hlk
            split at hlk
            · injection hlk with hlk
              subst hlk
              simp only [Option.getD_some]
              apply meanCells_getD_nonneg
              intro c hc q hq
              obtain ⟨p, hp, rfl⟩ := List.mem_map.mp hc
              obtain ⟨row, hrow, rfl⟩ := List.mem_map.mp (List.mem_filter.mp hp).1
              have hrow2 : row ∈ t.rows :=
                (List.mem_filter.mp (List.mem_filter.mp hrow).1).1
              have hall := List.all_eq_true.mp hu row hrow2
              revert hall hq
              cases getCell t.cols row cUnits with
              | na => intro hq _; exact absurd hq (by simp [cellQnum])
              | num q' =>
                intro hq hall
                have hq' : q' = q := by
                  simpa [cellQnum] using hq
                subst hq'
                exact of_decide_eq_true hall
              | date d => intro _ hall; exact absurd hall (by simp)
              | str s => intro _ hall; exact absurd hall (by simp)
            · exact absurd hlk (by simp)
        refine ⟨havg, ?_, rfl⟩
        have heps : (0 : ℚ) < epsQ := by norm_num [epsQ]
        nlinarith [havg, heps]

/-- C7 witness: the amended divisor guard evaluated on a concrete
one-item table with 2 units per day and 10 on hand. -/
theorem C7_witness :
    (0 : ℚ) ≤ 2 ∧ 0 < (2 : ℚ) * 7 + epsQ ∧
      (10000000 / 14000001 : ℚ) = 10 / (2 * 7 + epsQ) :=
  C7_reorder_divisor_positive tReorder (by decide)
    [RRow.mk [Cell.str ("a")] 2 10 (10000000 / 14000001)] (by decide)
    (RRow.mk [Cell.str ("a")] 2 10 (10000000 / 14000001)) (by decide)

/-- C9 witness: on two weeks of revenue 100 then 150 and the question
"Did revenue drop?", the engine still answers from the first branch,
reporting a negative 50 percent drop. -/
theorem C9_witness :
    rule_based_answer ("Did revenue drop?") tWeekly =
      Except.ok (Answer.revdropMsg (-50) 150 100) ∧ (-50 : ℚ) < 0 := by
  constructor
  · rw [C9_revdrop_branch_no_drop_required ("Did revenue drop?") tWeekly
      [WRow.mk (4 * oneDay) 100, WRow.mk (11 * oneDay) 150]
      (by decide) (by decide) (by decide) (by decide) (by decide)]
    decide
  · decide

end SquareAI
